import Mathlib

/-!
Verification of the Omada controller client (session/auth lifecycle and
paginated fetch) against its specification.  The Go source is shallowly
embedded: pure string manipulation becomes Lean functions on `String`,
the mutable `Client` struct becomes an explicit `ClientState` record,
HTTP calls become parameters describing the outcome of each call, and
Go `error` values become an explicit `Err` inductive.  Machine integers
(`int64`) are modelled as `Int`; none of the verified properties involve
overflow behaviour.
-/

/-! ## String path helpers

The source uses `strings.TrimSuffix(s, "/")` (removes one trailing "/")
and `url.JoinPath(base, p)` (joins path segments with a single "/"
separator).  We model both on `String.data`; `joinPath` models the
segment-joining behaviour of `url.JoinPath` for inputs without internal
duplicate separators, which is all the client ever passes. -/

/-- Does the string end with the path separator character. -/
def strEndsWithSlash (s : String) : Bool :=
  s.data.getLast? == some '/'

/-- Does the string start with the path separator character. -/
def strStartsWithSlash (s : String) : Bool :=
  s.data.head? == some '/'

/-- Model of `strings.TrimSuffix(s, "/")`: removes one trailing slash. -/
def trimSlash (s : String) : String :=
  if strEndsWithSlash s then String.mk s.data.dropLast else s

/-- Model of `url.JoinPath(base, p)`: join with exactly one "/" between. -/
def joinPath (base p : String) : String :=
  (if strEndsWithSlash base then String.mk base.data.dropLast else base) ++
    (if strStartsWithSlash p then p else String.mk ('/' :: p.data))

/-! ## Error taxonomy

Go `error` values produced by the client, compared (as in
`errors.Is(err, errTokenExpired)`) by identity of the sentinel. -/

/-- Errors the client can produce or propagate. -/
inductive Err where
  /-- The sentinel `errTokenExpired` value. -/
  | tokenExpired
  /-- Non-200, non-401 HTTP status (`"%q returned %q"`). -/
  | httpStatus (requrl status : String)
  /-- JSON decode failure. -/
  | decodeError (msg : String)
  /-- Nonzero application `errorCode` from a clients page (`"%v: %s"`). -/
  | appError (code : Int) (msg : String)
  /-- Empty controller ID from `/api/info` (`"missing controller ID"`). -/
  | discoveryError (code : Int) (msg : String)
  /-- Empty token from `/api/v2/login` (`"auth failed"`). -/
  | authError (code : Int) (msg : String)
  /-- Transport-level failure (connection error, timeout). -/
  | transport (msg : String)
deriving DecidableEq, Repr

/-! ## Session state

The mutable fields of the Go `Client` struct that the claims are about
(`configPath` is immutable after construction; `logger`, the HTTP client
and the mutex are not modelled — all state accesses in the source are
serialized through the mutex). -/

/-- The session-relevant fields of the Go `Client`. -/
structure ClientState where
  configPath : String
  username : String
  password : String
  baseURL : String
  token : String
deriving DecidableEq, Repr

/-- Model of `(*Client).SetToken`. -/
def SetToken (c : ClientState) (t : String) : ClientState :=
  { c with token := t }

/-- Model of `(*Client).SetBaseURL`: joins the segment onto `configPath`
(not onto the current `baseURL`) and trims a trailing slash.  The Go
version can only fail when `configPath` is unparsable as a URL, which
the model ignores. -/
def SetBaseURL (c : ClientState) (p : String) : ClientState :=
  { c with baseURL := trimSlash (joinPath c.configPath p) }

/-! ## Retry-once policy

`retryOnce` takes a fallible operation and runs it; on the sentinel
token-expired error (first time only) it re-authenticates and retries
once.  The operation is modelled as a function from invocation index to
outcome (`none` = success), and `authenticate`'s outcome as a single
`Option Err`; the trace records how many times each was invoked. -/

/-- Observable trace of one `retryOnce` run. -/
structure RetryTrace where
  tryCalls : Nat
  authCalls : Nat
  result : Option Err
deriving DecidableEq, Repr

/-- Model of `(*Client).retryOnce`.  The `retried` flag in the source
bounds the goto loop to at most two executions of `tryOp`, so the loop
unrolls exactly:  first failure with the sentinel triggers one
authentication and (if it succeeds) one retry whose outcome is returned
as-is; every other first outcome is returned directly. -/
def retryOnce (tryOp : Nat → Option Err) (auth : Option Err) : RetryTrace :=
  match tryOp 0 with
  | some e =>
    if e = Err.tokenExpired then
      match auth with
      | some ae => ⟨1, 1, some ae⟩
      | none => ⟨2, 1, tryOp 1⟩
    else ⟨1, 0, some e⟩
  | none => ⟨1, 0, none⟩

/-! ## Request executor

`doJSON` classifies a response: 401 maps to the token-expired sentinel
regardless of the body, any other non-200 status is a terminal HTTP
error, otherwise the body is JSON-decoded into the target.  The
response's body is modelled by the outcome of decoding it into the
target shape `α`. -/

/-- An HTTP response as observed by `doJSON`: status code, status text,
and the result of JSON-decoding its body into the target shape. -/
structure HTTPResponse (α : Type) where
  statusCode : Nat
  status : String
  decoded : Except String α
deriving Repr

/-- Model of `(*Client).doJSON`'s response classification. -/
def doJSON {α : Type} (requrl : String) (res : HTTPResponse α) : Except Err α :=
  if res.statusCode = 401 then Except.error Err.tokenExpired
  else if res.statusCode ≠ 200 then Except.error (Err.httpStatus requrl res.status)
  else
    match res.decoded with
    | Except.error m => Except.error (Err.decodeError m)
    | Except.ok v => Except.ok v

/-! ## Authenticator

`authenticate` resets the session (empty token, base path back to the
configured root), discovers the controller identity via `GET /api/info`,
sets the base path from it, then logs in via `POST /api/v2/login` and
stores the returned token.  The outcomes of the two HTTP calls are
parameters. -/

/-- Decoded shape of `GET /api/info` (`infoResult` in the source). -/
structure InfoResult where
  errorCode : Int
  msg : String
  controllerId : String
deriving DecidableEq, Repr

/-- Decoded shape of `POST /api/v2/login` (`authResult` in the source). -/
structure AuthResult where
  errorCode : Int
  msg : String
  roleType : Int
  token : String
deriving DecidableEq, Repr

/-- Model of `(*Client).authenticate`.  `info` and `login` are the
outcomes of the two requests (an `Err` covers transport failures, non-OK
statuses and decode failures, as classified by `doJSON`).  Returns the
state after the run and the returned `error`. -/
def authenticate (c : ClientState) (info : Except Err InfoResult)
    (login : Except Err AuthResult) : ClientState × Option Err :=
  let c1 := SetBaseURL (SetToken c "") "/"
  match info with
  | Except.error e => (c1, some e)
  | Except.ok ir =>
    if ir.controllerId = "" then
      (c1, some (Err.discoveryError ir.errorCode ir.msg))
    else
      let c2 := SetBaseURL c1 ir.controllerId
      match login with
      | Except.error e => (c2, some e)
      | Except.ok ar =>
        if ar.token = "" then (c2, some (Err.authError ar.errorCode ar.msg))
        else (SetToken c2 ar.token, none)

/-! ## Connected-clients data model (clients.go) -/

/-- The safety limit on pagination rounds. -/
def maxPages : Nat := 10

/-- A connected client record, field for field as in the source. -/
structure ConnectedClient where
  Active : Bool
  Activity : Int
  ApMAC : String
  ApName : String
  AuthStatus : Int
  Channel : Int
  ConnectDevType : String
  ConnectType : Int
  DeviceType : String
  DownPacket : Int
  Guest : Bool
  HostName : String
  IP : String
  LastSeen : Int
  MAC : String
  Manager : Bool
  Name : String
  PowerSave : Bool
  RadioID : Int
  RSSI : Int
  RxRate : Int
  SignalLevel : Int
  SignalRank : Int
  SSID : String
  TrafficDown : Int
  TrafficUp : Int
  TxRate : Int
  UpPacket : Int
  Uptime : Int
  WifiMode : Int
  Wireless : Bool
deriving DecidableEq, Repr

/-- The `Result` sub-struct of `ClientsResult`. -/
structure ClientsResultBody where
  currentPage : Int
  currentSize : Int
  totalRows : Int
  data : List ConnectedClient
deriving DecidableEq, Repr

/-- The API response envelope for client listings. -/
structure ClientsResult where
  errorCode : Int
  msg : String
  result : ClientsResultBody
deriving DecidableEq, Repr

/-! ## Deduplication -/

/-- The loop body of `dedupeClients`: `seen` is the set of MAC addresses
already emitted (the Go `map[string]struct{}` modelled as a list with
the same membership semantics), `out` the records emitted so far. -/
def dedupeGo (seen : List String) (out : List ConnectedClient) :
    List ConnectedClient → List ConnectedClient
  | [] => out
  | item :: rest =>
    if seen.contains item.MAC then dedupeGo seen out rest
    else dedupeGo (item.MAC :: seen) (out ++ [item]) rest

/-- Model of `dedupeClients`: removes duplicate entries by MAC address,
keeping the first occurrence, in input order. -/
def dedupeClients (inp : List ConnectedClient) : List ConnectedClient :=
  dedupeGo [] [] inp

/-! ## The page-fetch closure (`get` inside `ConnectedClients`)

`fetched` is the outcome of `c.getJSON(path, &r)` (classified by
`doJSON`); the closure then maps the application `errorCode`. -/

/-- Model of the `get` closure's error mapping: `errorCode == -1200`
becomes the token-expired sentinel, any other nonzero `errorCode` a
terminal application error. -/
def clientsGet (fetched : Except Err ClientsResult) : Except Err ClientsResult :=
  match fetched with
  | Except.error e => Except.error e
  | Except.ok r =>
    if r.errorCode = -1200 then Except.error Err.tokenExpired
    else if r.errorCode ≠ 0 then Except.error (Err.appError r.errorCode r.msg)
    else Except.ok r

/-! ## Percent-encoding of the site segment

Model of Go's `url.QueryEscape`: bytes of the UTF-8 encoding are kept
verbatim for unreserved characters (alphanumerics and `-_.~`), a space
becomes `+`, and every other byte becomes `%XX` with uppercase hex. -/

/-- Is `ch` left unescaped by `url.QueryEscape`. -/
def isUnreservedQuery (ch : Char) : Bool :=
  (('A' ≤ ch && ch ≤ 'Z') || ('a' ≤ ch && ch ≤ 'z') ||
   ('0' ≤ ch && ch ≤ '9') || ch == '-' || ch == '_' || ch == '.' || ch == '~')

/-- Uppercase hexadecimal digits. -/
def hexDigits : List Char :=
  ['0', '1', '2', '3', '4', '5', '6', '7', '8', '9', 'A', 'B', 'C', 'D', 'E', 'F']

/-- The `n`-th uppercase hexadecimal digit. -/
def hexDigit (n : Nat) : Char := hexDigits.getD n '0'

/-- UTF-8 byte sequence of a Unicode scalar value. -/
def utf8Bytes (n : Nat) : List Nat :=
  if n < 128 then [n]
  else if n < 2048 then [192 + n / 64, 128 + n % 64]
  else if n < 65536 then [224 + n / 4096, 128 + n / 64 % 64, 128 + n % 64]
  else [240 + n / 262144, 128 + n / 4096 % 64, 128 + n / 64 % 64, 128 + n % 64]

/-- Percent-escape of one byte. -/
def escapeByte (b : Nat) : List Char :=
  ['%', hexDigit (b / 16 % 16), hexDigit (b % 16)]

/-- `url.QueryEscape` behaviour on one character. -/
def escapeChar (ch : Char) : List Char :=
  if ch = ' ' then ['+']
  else if isUnreservedQuery ch then [ch]
  else (List.map escapeByte (utf8Bytes ch.toNat)).flatten

/-- Model of `url.QueryEscape`. -/
def queryEscape (s : String) : String :=
  String.mk (List.map escapeChar s.data).flatten

/-- The request path built by `ConnectedClients` for one page (the
`fmt.Sprintf` on lines 84–88 of clients.go). -/
def clientsPath (site : String) (page : Nat) : String :=
  "/api/v2/sites/" ++ queryEscape site ++
    "/clients?currentPage=" ++ toString page ++
    "&currentPageSize=100&filters.active=true"

/-! ## Paginated fetcher

The `for` loop of `ConnectedClients` runs `currentPage` from 1 while
`currentPage <= maxPages`; each round fetches a page through
`c.retryOnce(get)`, appends its data, and breaks when the accumulated
count reaches the page's reported `totalRows` or the page was empty.
The per-page outcome of `c.retryOnce(get)` is a parameter
`fetchPage : Nat → Except Err ClientsResult` (on success the envelope
necessarily has `errorCode = 0`, `clientsGet` having filtered the rest).

The loop is translated with an explicit round counter `remaining`,
initialised to `maxPages` and kept equal to `maxPages + 1 - currentPage`,
so that `remaining = 0` is exactly the loop condition
`currentPage <= maxPages` failing. -/

/-- How one `ConnectedClients` loop run ends: `ok` with the raw (not yet
deduplicated) accumulator, the number of pages fetched and whether the
safety-limit warning fired, or `fail` with the error returned after the
given page's fetch. -/
inductive LoopOutcome where
  | ok (acc : List ConnectedClient) (pagesFetched : Nat) (warned : Bool)
  | fail (e : Err) (pagesFetched : Nat)
deriving DecidableEq, Repr

/-- The `for` loop of `ConnectedClients` (lines 79–111 of clients.go). -/
def loopGo (fetchPage : Nat → Except Err ClientsResult) :
    Nat → Nat → List ConnectedClient → LoopOutcome
  | 0, currentPage, acc => LoopOutcome.ok acc (currentPage - 1) true
  | remaining + 1, currentPage, acc =>
    match fetchPage currentPage with
    | Except.error e => LoopOutcome.fail e currentPage
    | Except.ok r =>
      let acc' := acc ++ r.result.data
      if ((acc'.length : Int) ≥ r.result.totalRows) ∨ r.result.data.length = 0 then
        LoopOutcome.ok acc' currentPage false
      else
        loopGo fetchPage remaining (currentPage + 1) acc'

/-- What `ConnectedClients` hands back to its caller: the slice (Go
`nil` = `none`) and the error, plus the observable page count and
whether the safety-limit warning was logged. -/
structure ConnectedClientsReturn where
  clients : Option (List ConnectedClient)
  err : Option Err
  pagesFetched : Nat
  warned : Bool
deriving DecidableEq, Repr

/-- Model of `(*Client).ConnectedClients`: run the paginated loop from
page 1, return `(nil, err)` on a fetch error, otherwise the
deduplicated accumulator and a nil error (warning logged when the loop
exhausted the safety limit). -/
def ConnectedClients (fetchPage : Nat → Except Err ClientsResult) :
    ConnectedClientsReturn :=
  match loopGo fetchPage maxPages 1 [] with
  | LoopOutcome.ok acc pages warned => ⟨some (dedupeClients acc), none, pages, warned⟩
  | LoopOutcome.fail e pages => ⟨none, some e, pages, false⟩

/-! ## Derived notions used to state the pagination claims -/

/-- Concatenation of the data of pages `1..P` of an environment `env`
assigning to every page number its decoded envelope. -/
def pagesConcat (env : Nat → ClientsResult) : Nat → List ConnectedClient
  | 0 => []
  | p + 1 => pagesConcat env p ++ (env (p + 1)).result.data

/-- The loop's stop condition as observed after fetching page `p` with
all of pages `1..p` accumulated: the accumulated count has reached page
`p`'s reported `totalRows`, or page `p` is empty. -/
def stopCondAt (env : Nat → ClientsResult) (p : Nat) : Prop :=
  (((pagesConcat env p).length : Int) ≥ (env p).result.totalRows) ∨
    (env p).result.data.length = 0

instance (env : Nat → ClientsResult) (p : Nat) : Decidable (stopCondAt env p) := by
  unfold stopCondAt
  exact inferInstance

/-! ## Auxiliary definitions for the proofs -/

/-- Tail of the dedupe loop with the accumulator factored out:
`dedupeGo seen out l = out ++ dedupeFrom seen l`. -/
def dedupeFrom (seen : List String) : List ConnectedClient → List ConnectedClient
  | [] => []
  | x :: xs =>
    if seen.contains x.MAC then dedupeFrom seen xs
    else x :: dedupeFrom (x.MAC :: seen) xs

/-- A client record with the given MAC address and default attributes. -/
def mkClient (mac : String) : ConnectedClient where
  Active := true
  Activity := 0
  ApMAC := ""
  ApName := ""
  AuthStatus := 0
  Channel := 0
  ConnectDevType := ""
  ConnectType := 0
  DeviceType := ""
  DownPacket := 0
  Guest := false
  HostName := ""
  IP := ""
  LastSeen := 0
  MAC := mac
  Manager := false
  Name := ""
  PowerSave := false
  RadioID := 0
  RSSI := 0
  RxRate := 0
  SignalLevel := 0
  SignalRank := 0
  SSID := ""
  TrafficDown := 0
  TrafficUp := 0
  TxRate := 0
  UpPacket := 0
  Uptime := 0
  WifiMode := 0
  Wireless := true

/-- A successful page envelope with the given `totalRows` and records. -/
def mkPage (total : Int) (macs : List String) : ClientsResult where
  errorCode := 0
  msg := ""
  result := { currentPage := 0, currentSize := 0, totalRows := total,
              data := macs.map mkClient }

/-- Page environment: two pages of 2 and 1 records, `totalRows = 3`. -/
def envTotal : Nat → ClientsResult := fun p =>
  if p = 1 then mkPage 3 ["aa", "bb"] else mkPage 3 ["cc"]

/-- Page environment: every page has one record, `totalRows = 1000`. -/
def envLimit : Nat → ClientsResult := fun _ => mkPage 1000 ["aa"]

/-- Page environment: page 1 has 2 records, page 2 is empty,
`totalRows = 5` is never reached. -/
def envEmpty : Nat → ClientsResult := fun p =>
  if p = 1 then mkPage 5 ["aa", "bb"] else mkPage 5 []

/-- A fetcher whose every page fetch succeeds with the given envelope. -/
def fetchEnv (env : Nat → ClientsResult) : Nat → Except Err ClientsResult :=
  fun p => Except.ok (env p)

/-- A fetcher whose every page fetch fails with an application error. -/
def fetchFail : Nat → Except Err ClientsResult :=
  fun _ => Except.error (Err.appError 5 "boom")

/-! ## Helper lemmas: path strings -/

/-- Rebuilding a string from its character list is the identity. -/
lemma string_mk_data (s : String) : String.mk s.data = s := by
  cases s
  rfl

/-- Appending the separator and trimming it back is the identity. -/
lemma trimSlash_append_slash (x : String) : trimSlash (x ++ "/") = x := by
  have hend : strEndsWithSlash (x ++ "/") = true := by
    unfold strEndsWithSlash
    rw [String.data_append]
    simp [List.getLast?_concat, String]
  unfold trimSlash
  rw [hend]
  simp only [if_true]
  rw [String.data_append]
  have : (x.data ++ "/".data).dropLast = x.data := List.dropLast_concat ..
  rw [this, string_mk_data]

/-- `joinPath` factors through `trimSlash` on its first argument. -/
lemma joinPath_eq (s p : String) :
    joinPath s p =
      trimSlash s ++ (if strStartsWithSlash p then p else String.mk ('/' :: p.data)) := by
  unfold joinPath trimSlash
  rfl

/-- Joining the bare separator and trimming yields the trimmed root. -/
lemma trimSlash_joinPath_root (s : String) :
    trimSlash (joinPath s "/") = trimSlash s := by
  rw [joinPath_eq]
  have : strStartsWithSlash "/" = true := by decide
  rw [this]
  simp only [if_true]
  exact trimSlash_append_slash (trimSlash s)

/-- Prepending a slash as character list is appending to the separator. -/
lemma slash_mk_eq (p : String) : String.mk ('/' :: p.data) = "/" ++ p := by
  apply String.ext
  rw [String.data_append]
  rfl

/-- `trimSlash` is the identity on strings without a trailing slash. -/
lemma trimSlash_of_not_slash (x : String) (h : strEndsWithSlash x = false) :
    trimSlash x = x := by
  unfold trimSlash
  rw [h]
  simp

/-- Joining a plain segment (nonempty, no leading or trailing slash)
onto a root, then trimming, appends exactly one separator and the
segment onto the trimmed root. -/
lemma trimSlash_joinPath_segment (s p : String) (h0 : p ≠ "")
    (h1 : strStartsWithSlash p = false) (h2 : strEndsWithSlash p = false) :
    trimSlash (joinPath s p) = trimSlash s ++ "/" ++ p := by
  rw [joinPath_eq, h1]
  simp only [if_false, Bool.false_eq_true]
  have hdata : p.data ≠ [] := by
    intro hd
    exact h0 (by apply String.ext; simpa using hd)
  have hend : strEndsWithSlash (trimSlash s ++ String.mk ('/' :: p.data)) = false := by
    unfold strEndsWithSlash
    rw [String.data_append]
    have hne : ('/' :: p.data) ≠ ([] : List Char) := by simp
    rw [List.getLast?_append_of_ne_nil _ hne]
    show (('/' :: p.data).getLast? == some '/') = false
    have : ('/' :: p.data).getLast? = p.data.getLast? := by
      have : ('/' :: p.data) = ['/'] ++ p.data := rfl
      rw [this, List.getLast?_append_of_ne_nil _ hdata]
    rw [this]
    unfold strEndsWithSlash at h2
    exact h2
  rw [trimSlash_of_not_slash _ hend, slash_mk_eq, ← String.append_assoc]

/-! ## Helper lemmas: deduplication -/

/-- The dedupe loop emits the already-accumulated prefix unchanged. -/
lemma dedupeGo_eq_dedupeFrom (l : List ConnectedClient) :
    ∀ (seen : List String) (out : List ConnectedClient),
      dedupeGo seen out l = out ++ dedupeFrom seen l := by
  induction l with
  | nil => intro seen out; simp [dedupeGo, dedupeFrom]
  | cons x xs ih =>
    intro seen out
    by_cases h : x.MAC ∈ seen
    · simp [dedupeGo, dedupeFrom, h, ih]
    · simp [dedupeGo, dedupeFrom, h, ih]

/-- `dedupeClients` through `dedupeFrom`. -/
lemma dedupeClients_eq_dedupeFrom (l : List ConnectedClient) :
    dedupeClients l = dedupeFrom [] l := by
  simpa using dedupeGo_eq_dedupeFrom l [] []

/-- The dedupe output is a subsequence of the input. -/
lemma dedupeFrom_sublist (l : List ConnectedClient) :
    ∀ seen, List.Sublist (dedupeFrom seen l) l := by
  induction l with
  | nil => intro seen; simp [dedupeFrom]
  | cons x xs ih =>
    intro seen
    by_cases h : x.MAC ∈ seen
    · have hstep : dedupeFrom seen (x :: xs) = dedupeFrom seen xs := by
        simp [dedupeFrom, h]
      rw [hstep]
      exact (ih seen).cons x
    · have hstep : dedupeFrom seen (x :: xs) = x :: dedupeFrom (x.MAC :: seen) xs := by
        simp [dedupeFrom, h]
      rw [hstep]
      exact (ih (x.MAC :: seen)).cons₂ x

/-- Every emitted record has a MAC outside `seen` and is the first
record of the input with its MAC. -/
lemma dedupeFrom_mem (l : List ConnectedClient) :
    ∀ seen x, x ∈ dedupeFrom seen l →
      x.MAC ∉ seen ∧ l.find? (fun y => y.MAC == x.MAC) = some x := by
  induction l with
  | nil => intro seen x hx; simp [dedupeFrom] at hx
  | cons z xs ih =>
    intro seen x hx
    by_cases h : z.MAC ∈ seen
    · have hstep : dedupeFrom seen (z :: xs) = dedupeFrom seen xs := by
        simp [dedupeFrom, h]
      rw [hstep] at hx
      obtain ⟨hnot, hfind⟩ := ih seen x hx
      have hne : z.MAC ≠ x.MAC := fun hEq => hnot (hEq ▸ h)
      refine ⟨hnot, ?_⟩
      rw [List.find?_cons_of_neg, hfind]
      simpa using hne
    · have hstep : dedupeFrom seen (z :: xs) = z :: dedupeFrom (z.MAC :: seen) xs := by
        simp [dedupeFrom, h]
      rw [hstep] at hx
      rcases List.mem_cons.mp hx with rfl | hx'
      · refine ⟨h, ?_⟩
        rw [List.find?_cons_of_pos]
        simp
      · obtain ⟨hnot, hfind⟩ := ih (z.MAC :: seen) x hx'
        have hne : x.MAC ≠ z.MAC := fun hEq => hnot (by simp [hEq])
        refine ⟨fun hmem => hnot (by simp [hmem]), ?_⟩
        rw [List.find?_cons_of_neg, hfind]
        simpa using fun hEq => hne hEq.symm

/-- The emitted MAC addresses are pairwise distinct. -/
lemma dedupeFrom_nodup (l : List ConnectedClient) :
    ∀ seen, ((dedupeFrom seen l).map (fun x => x.MAC)).Nodup := by
  induction l with
  | nil => intro seen; simp [dedupeFrom]
  | cons z xs ih =>
    intro seen
    by_cases h : z.MAC ∈ seen
    · have hstep : dedupeFrom seen (z :: xs) = dedupeFrom seen xs := by
        simp [dedupeFrom, h]
      rw [hstep]
      exact ih seen
    · have hstep : dedupeFrom seen (z :: xs) = z :: dedupeFrom (z.MAC :: seen) xs := by
        simp [dedupeFrom, h]
      rw [hstep, List.map_cons, List.nodup_cons]
      refine ⟨?_, ih (z.MAC :: seen)⟩
      intro hmem
      obtain ⟨y, hy, hyEq⟩ := List.mem_map.mp hmem
      obtain ⟨hnot, _⟩ := dedupeFrom_mem xs (z.MAC :: seen) y hy
      exact hnot (by simp [hyEq])

/-- Every input MAC is represented in the output (when not in `seen`). -/
lemma dedupeFrom_complete (l : List ConnectedClient) :
    ∀ seen x, x ∈ l → x.MAC ∉ seen →
      ∃ y ∈ dedupeFrom seen l, y.MAC = x.MAC := by
  induction l with
  | nil => intro seen x hx; simp at hx
  | cons z xs ih =>
    intro seen x hx hnot
    by_cases h : z.MAC ∈ seen
    · have hstep : dedupeFrom seen (z :: xs) = dedupeFrom seen xs := by
        simp [dedupeFrom, h]
      rw [hstep]
      rcases List.mem_cons.mp hx with rfl | hx'
      · exact absurd h hnot
      · exact ih seen x hx' hnot
    · have hstep : dedupeFrom seen (z :: xs) = z :: dedupeFrom (z.MAC :: seen) xs := by
        simp [dedupeFrom, h]
      rw [hstep]
      rcases List.mem_cons.mp hx with rfl | hx'
      · exact ⟨x, List.mem_cons_self .., rfl⟩
      · by_cases hEq : x.MAC = z.MAC
        · exact ⟨z, List.mem_cons_self .., hEq.symm⟩
        · obtain ⟨y, hy, hyEq⟩ := ih (z.MAC :: seen) x hx' (by simp [hEq, hnot])
          exact ⟨y, List.mem_cons_of_mem z hy, hyEq⟩

/-- On an input whose MACs avoid `seen` and are already distinct, the
dedupe pass is the identity. -/
lemma dedupeFrom_of_nodup (l : List ConnectedClient) :
    ∀ seen, (∀ x ∈ l, x.MAC ∉ seen) →
      ((l.map (fun x => x.MAC)).Nodup) → dedupeFrom seen l = l := by
  induction l with
  | nil => intro seen _ _; simp [dedupeFrom]
  | cons z xs ih =>
    intro seen havoid hnodup
    have h : z.MAC ∉ seen := havoid z (List.mem_cons_self ..)
    have hstep : dedupeFrom seen (z :: xs) = z :: dedupeFrom (z.MAC :: seen) xs := by
      simp [dedupeFrom, h]
    rw [hstep]
    rw [List.map_cons, List.nodup_cons] at hnodup
    congr 1
    apply ih (z.MAC :: seen)
    · intro x hx
      simp only [List.mem_cons]
      push_neg
      refine ⟨?_, havoid x (List.mem_cons_of_mem z hx)⟩
      intro hEq
      exact hnodup.1 (hEq ▸ List.mem_map_of_mem (fun x => x.MAC) hx)
    · exact hnodup.2

/-! ## Helper lemmas: pagination loop -/

/-- Running the loop from `start` with pages `1..start-1` accumulated:
if the stop condition first holds at page `P` (within the limit) and
all fetches up to `P` succeed, the loop breaks at `P` with pages `1..P`
accumulated and no warning. -/
lemma loopGo_stop (fetchPage : Nat → Except Err ClientsResult)
    (env : Nat → ClientsResult) (P : Nat) (hP : P ≤ maxPages) :
    ∀ (rem start : Nat), start + rem = maxPages + 1 → 1 ≤ start → start ≤ P →
    (∀ p, start ≤ p → p ≤ P → fetchPage p = Except.ok (env p)) →
    (∀ p, start ≤ p → p < P → ¬ stopCondAt env p) →
    stopCondAt env P →
    loopGo fetchPage rem start (pagesConcat env (start - 1)) =
      LoopOutcome.ok (pagesConcat env P) P false := by
  intro rem
  induction rem with
  | zero =>
    intro start hsum h1 hsP _ _ _
    unfold maxPages at hsum hP
    omega
  | succ n ih =>
    intro start hsum h1 hsP hfetch hnostop hstop
    obtain ⟨s0, rfl⟩ : ∃ s0, start = s0 + 1 := ⟨start - 1, by omega⟩
    have hfs : fetchPage (s0 + 1) = Except.ok (env (s0 + 1)) :=
      hfetch (s0 + 1) le_rfl hsP
    have hacc : s0 + 1 - 1 = s0 := by omega
    rw [hacc]
    rw [loopGo, hfs]
    simp only
    rcases Nat.lt_or_ge (s0 + 1) P with hlt | hge
    · have hc : ¬ stopCondAt env (s0 + 1) := hnostop (s0 + 1) le_rfl hlt
      rw [if_neg (by simpa [stopCondAt, pagesConcat] using hc)]
      have := ih (s0 + 2) (by omega) (by omega) (by omega)
        (fun p hp1 hp2 => hfetch p (by omega) hp2)
        (fun p hp1 hp2 => hnostop p (by omega) hp2) hstop
      simpa [pagesConcat] using this
    · have hPeq : P = s0 + 1 := by omega
      subst hPeq
      rw [if_pos (by simpa [stopCondAt, pagesConcat] using hstop)]
      simp [pagesConcat]

/-- Running the loop from `start` with pages `1..start-1` accumulated:
if the stop condition never holds within the limit and all fetches
succeed, the loop exhausts the limit with pages `1..maxPages`
accumulated and warns. -/
lemma loopGo_exhaust (fetchPage : Nat → Except Err ClientsResult)
    (env : Nat → ClientsResult) :
    ∀ (rem start : Nat), start + rem = maxPages + 1 → 1 ≤ start →
    (∀ p, start ≤ p → p ≤ maxPages → fetchPage p = Except.ok (env p)) →
    (∀ p, start ≤ p → p ≤ maxPages → ¬ stopCondAt env p) →
    loopGo fetchPage rem start (pagesConcat env (start - 1)) =
      LoopOutcome.ok (pagesConcat env maxPages) maxPages true := by
  intro rem
  induction rem with
  | zero =>
    intro start hsum h1 _ _
    have hstart : start = maxPages + 1 := by omega
    subst hstart
    rw [loopGo]
    simp
  | succ n ih =>
    intro start hsum h1 hfetch hnostop
    obtain ⟨s0, rfl⟩ : ∃ s0, start = s0 + 1 := ⟨start - 1, by omega⟩
    have hle : s0 + 1 ≤ maxPages := by omega
    have hfs : fetchPage (s0 + 1) = Except.ok (env (s0 + 1)) :=
      hfetch (s0 + 1) le_rfl hle
    have hacc : s0 + 1 - 1 = s0 := by omega
    rw [hacc]
    rw [loopGo, hfs]
    simp only
    have hc : ¬ stopCondAt env (s0 + 1) := hnostop (s0 + 1) le_rfl hle
    rw [if_neg (by simpa [stopCondAt, pagesConcat] using hc)]
    have := ih (s0 + 2) (by omega) (by omega)
      (fun p hp1 hp2 => hfetch p (by omega) hp2)
      (fun p hp1 hp2 => hnostop p (by omega) hp2)
    simpa [pagesConcat] using this

/-! ## Claim theorems -/

/-- C1: an operation failing with the token-expired sentinel on every
invocation is run exactly twice with exactly one authentication (when
authentication succeeds) and the second invocation's failure is
returned as-is; a failure of `authenticate` itself, or any first
failure other than the sentinel, is returned immediately with no
further retry of the operation. -/
theorem retryOnce_spec (tryOp : Nat → Option Err) (auth : Option Err) :
    (tryOp 0 = some Err.tokenExpired → auth = none →
       retryOnce tryOp auth = ⟨2, 1, tryOp 1⟩)
  ∧ (tryOp 0 = some Err.tokenExpired → ∀ e, auth = some e →
       retryOnce tryOp auth = ⟨1, 1, some e⟩)
  ∧ (∀ e, tryOp 0 = some e → e ≠ Err.tokenExpired →
       retryOnce tryOp auth = ⟨1, 0, some e⟩) := by
  refine ⟨?_, ?_, ?_⟩
  · intro h0 hauth
    simp [retryOnce, h0, hauth]
  · intro h0 e hauth
    simp [retryOnce, h0, hauth]
  · intro e h0 hne
    simp [retryOnce, h0, hne]

/-- C1 witness: an operation that always fails with the sentinel, with
a succeeding authenticator, is tried twice, authenticates once, and the
second sentinel failure is surfaced. -/
theorem retryOnce_spec_witness :
    (fun _ : Nat => some Err.tokenExpired) 0 = some Err.tokenExpired
  ∧ retryOnce (fun _ => some Err.tokenExpired) none =
      ⟨2, 1, some Err.tokenExpired⟩ :=
  ⟨rfl, (retryOnce_spec (fun _ => some Err.tokenExpired) none).1 rfl rfl⟩

/-- C6: `doJSON` maps HTTP 401 to the token-expired sentinel whatever
the response body decodes to; the page-fetch closure maps application
`errorCode = -1200` to the same sentinel value and any other nonzero
`errorCode` to a terminal application error carrying code and
message. -/
theorem tokenExpired_mapping :
    (∀ (α : Type) (u : String) (res : HTTPResponse α), res.statusCode = 401 →
       doJSON u res = Except.error Err.tokenExpired)
  ∧ (∀ r : ClientsResult, r.errorCode = -1200 →
       clientsGet (Except.ok r) = Except.error Err.tokenExpired)
  ∧ (∀ r : ClientsResult, r.errorCode ≠ -1200 → r.errorCode ≠ 0 →
       clientsGet (Except.ok r) = Except.error (Err.appError r.errorCode r.msg)) := by
  refine ⟨?_, ?_, ?_⟩
  · intro α u res h
    simp [doJSON, h]
  · intro r h
    simp [clientsGet, h]
  · intro r h1 h2
    simp [clientsGet, h1, h2]

/-- C6 witness: a 401 response with an undecodable body, and envelopes
with codes -1200 and 5, at concrete inputs. -/
theorem tokenExpired_mapping_witness :
    doJSON "https://c/x"
      ({ statusCode := 401, status := "401 Unauthorized",
         decoded := Except.error "ignored" } : HTTPResponse Nat) =
      Except.error Err.tokenExpired
  ∧ clientsGet (Except.ok (mkPage 0 [] )) = Except.ok (mkPage 0 [])
  ∧ clientsGet (Except.ok { mkPage 0 [] with errorCode := -1200 }) =
      Except.error Err.tokenExpired
  ∧ clientsGet (Except.ok { mkPage 0 [] with errorCode := 5, msg := "bad" }) =
      Except.error (Err.appError 5 "bad") :=
  ⟨tokenExpired_mapping.1 Nat "https://c/x" _ rfl,
   rfl,
   tokenExpired_mapping.2.1 _ rfl,
   tokenExpired_mapping.2.2 _ (by decide) (by decide)⟩

/-- C7: `SetBaseURL` computes the new base from the immutable
`configPath` (so it is insensitive to the current `baseURL`), trims the
trailing separator, and calling it twice with the same segment equals
calling it once. -/
theorem setBaseURL_spec (c : ClientState) (p b : String) :
    SetBaseURL (SetBaseURL c p) p = SetBaseURL c p
  ∧ (SetBaseURL c p).baseURL = trimSlash (joinPath c.configPath p)
  ∧ (SetBaseURL { c with baseURL := b } p).baseURL = (SetBaseURL c p).baseURL
  ∧ (SetBaseURL c "/").baseURL = trimSlash c.configPath := by
  refine ⟨?_, rfl, rfl, ?_⟩
  · simp [SetBaseURL]
  · simp [SetBaseURL, trimSlash_joinPath_root]

/-- C10: whenever `ConnectedClients` returns a non-nil error, the
returned client slice is nil — no partial accumulator accompanies an
error. -/
theorem connectedClients_error_nil (fetchPage : Nat → Except Err ClientsResult)
    (e : Err) (h : (ConnectedClients fetchPage).err = some e) :
    (ConnectedClients fetchPage).clients = none := by
  unfold ConnectedClients at h ⊢
  cases hl : loopGo fetchPage maxPages 1 [] with
  | ok acc pages warned => rw [hl] at h; simp at h
  | fail e2 pages => rfl

/-- C10 witness: a fetcher whose first page fails yields a nil slice
with the error. -/
theorem connectedClients_error_nil_witness :
    (ConnectedClients fetchFail).err = some (Err.appError 5 "boom")
  ∧ (ConnectedClients fetchFail).clients = none :=
  ⟨rfl, connectedClients_error_nil fetchFail (Err.appError 5 "boom") rfl⟩

/-- C2: `dedupeClients` keeps a subsequence of the input (preserving
relative order) whose MACs are pairwise distinct, every kept record is
the first record of the input carrying its MAC, every input MAC is
represented, and the function is idempotent. -/
theorem dedupeClients_spec (l : List ConnectedClient) :
    List.Sublist (dedupeClients l) l
  ∧ ((dedupeClients l).map (fun x => x.MAC)).Nodup
  ∧ (∀ x ∈ dedupeClients l, l.find? (fun y => y.MAC == x.MAC) = some x)
  ∧ (∀ x ∈ l, ∃ y ∈ dedupeClients l, y.MAC = x.MAC)
  ∧ dedupeClients (dedupeClients l) = dedupeClients l := by
  rw [dedupeClients_eq_dedupeFrom]
  refine ⟨dedupeFrom_sublist l [], dedupeFrom_nodup l [], ?_, ?_, ?_⟩
  · intro x hx
    exact (dedupeFrom_mem l [] x hx).2
  · intro x hx
    exact dedupeFrom_complete l [] x hx (by simp)
  · rw [dedupeClients_eq_dedupeFrom]
    exact dedupeFrom_of_nodup (dedupeFrom [] l) [] (by simp) (dedupeFrom_nodup l [])

/-- C2 witness: a concrete input with a duplicated MAC; the duplicate
is dropped, the first occurrences stay in order, and a second pass
changes nothing. -/
theorem dedupeClients_spec_witness :
    dedupeClients [mkClient "aa", mkClient "bb", mkClient "aa"] =
      [mkClient "aa", mkClient "bb"]
  ∧ mkClient "aa" ∈ dedupeClients [mkClient "aa", mkClient "bb", mkClient "aa"]
  ∧ [mkClient "aa", mkClient "bb", mkClient "aa"].find?
      (fun y => y.MAC == (mkClient "aa").MAC) = some (mkClient "aa")
  ∧ dedupeClients (dedupeClients [mkClient "aa", mkClient "bb", mkClient "aa"]) =
      dedupeClients [mkClient "aa", mkClient "bb", mkClient "aa"] :=
  ⟨by decide, by decide,
   (dedupeClients_spec [mkClient "aa", mkClient "bb", mkClient "aa"]).2.2.1
     (mkClient "aa") (by decide),
   (dedupeClients_spec [mkClient "aa", mkClient "bb", mkClient "aa"]).2.2.2.2⟩

/-- C3: when every page fetch up to `P` succeeds, pages before `P` are
nonempty and have not yet reached their reported `totalRows`, and the
accumulated count first reaches page `P`'s reported `totalRows` at
`P ≤ maxPages`, `ConnectedClients` returns the deduplicated
concatenation of pages `1..P` with a nil error, having fetched exactly
`P` pages — the conclusion is independent of the fetcher's behaviour on
any page after `P`. -/
theorem connectedClients_totalRows (fetchPage : Nat → Except Err ClientsResult)
    (env : Nat → ClientsResult) (P : Nat)
    (h1 : 1 ≤ P) (hP : P ≤ maxPages)
    (hfetch : ∀ p, 1 ≤ p → p ≤ P → fetchPage p = Except.ok (env p))
    (hbefore : ∀ p, 1 ≤ p → p < P →
       ¬ (((pagesConcat env p).length : Int) ≥ (env p).result.totalRows) ∧
       (env p).result.data ≠ [])
    (hreach : ((pagesConcat env P).length : Int) ≥ (env P).result.totalRows) :
    ConnectedClients fetchPage =
      ⟨some (dedupeClients (pagesConcat env P)), none, P, false⟩ := by
  have hnostop : ∀ p, 1 ≤ p → p < P → ¬ stopCondAt env p := by
    intro p hp1 hpP hcontra
    obtain ⟨ha, hb⟩ := hbefore p hp1 hpP
    rcases hcontra with hlen | hdata
    · exact ha hlen
    · exact hb (List.length_eq_zero.mp hdata)
  have hloop := loopGo_stop fetchPage env P hP maxPages 1 rfl le_rfl h1
    hfetch hnostop (Or.inl hreach)
  unfold ConnectedClients
  rw [show pagesConcat env (1 - 1) = [] from rfl] at hloop
  rw [hloop]

/-- C3 witness: two pages of 2 and 1 records with `totalRows = 3`; the
loop stops after page 2 with all three records, deduplicated. -/
theorem connectedClients_totalRows_witness :
    ConnectedClients (fetchEnv envTotal) =
      ⟨some (dedupeClients (pagesConcat envTotal 2)), none, 2, false⟩
  ∧ dedupeClients (pagesConcat envTotal 2) =
      [mkClient "aa", mkClient "bb", mkClient "cc"] :=
  ⟨connectedClients_totalRows (fetchEnv envTotal) envTotal 2
     (by decide) (by decide) (fun p _ _ => rfl)
     (by intro p h1 h2; interval_cases p; exact ⟨by decide, by decide⟩)
     (by decide),
   by decide⟩

/-- C4: when every page fetch succeeds but no page within the safety
limit is empty or reaches its reported `totalRows`, `ConnectedClients`
fetches exactly `maxPages = 10` pages, fires the warning, and returns
the deduplicated partial accumulator with a nil error. -/
theorem connectedClients_safetyLimit (fetchPage : Nat → Except Err ClientsResult)
    (env : Nat → ClientsResult)
    (hfetch : ∀ p, 1 ≤ p → p ≤ maxPages → fetchPage p = Except.ok (env p))
    (hnostopall : ∀ p, 1 ≤ p → p ≤ maxPages →
       ¬ (((pagesConcat env p).length : Int) ≥ (env p).result.totalRows) ∧
       (env p).result.data ≠ []) :
    ConnectedClients fetchPage =
      ⟨some (dedupeClients (pagesConcat env maxPages)), none, maxPages, true⟩ := by
  have hnostop : ∀ p, 1 ≤ p → p ≤ maxPages → ¬ stopCondAt env p := by
    intro p hp1 hpP hcontra
    obtain ⟨ha, hb⟩ := hnostopall p hp1 hpP
    rcases hcontra with hlen | hdata
    · exact ha hlen
    · exact hb (List.length_eq_zero.mp hdata)
  have hloop := loopGo_exhaust fetchPage env maxPages 1 rfl le_rfl
    hfetch hnostop
  unfold ConnectedClients
  rw [show pagesConcat env (1 - 1) = [] from rfl] at hloop
  rw [hloop]

/-- C4 witness: every page carries one record with `totalRows = 1000`;
the loop runs all ten pages, warns, and returns the (deduplicated)
partial accumulator without error. -/
theorem connectedClients_safetyLimit_witness :
    ConnectedClients (fetchEnv envLimit) =
      ⟨some (dedupeClients (pagesConcat envLimit 10)), none, 10, true⟩
  ∧ dedupeClients (pagesConcat envLimit 10) = [mkClient "aa"]
  ∧ (pagesConcat envLimit 10).length = 10 :=
  ⟨connectedClients_safetyLimit (fetchEnv envLimit) envLimit
     (fun p _ _ => rfl)
     (by
        intro p h1 h2
        have h2' : p ≤ 10 := h2
        interval_cases p <;> exact ⟨by decide, by decide⟩),
   by decide, by decide⟩

/-- C5: when every page fetch up to `P` succeeds, pages before `P` are
nonempty and below their reported `totalRows`, and page `P ≤ maxPages`
returns zero records, `ConnectedClients` stops at page `P` (fetching no
further page) and returns the deduplicated accumulator with a nil
error. -/
theorem connectedClients_emptyPage (fetchPage : Nat → Except Err ClientsResult)
    (env : Nat → ClientsResult) (P : Nat)
    (h1 : 1 ≤ P) (hP : P ≤ maxPages)
    (hfetch : ∀ p, 1 ≤ p → p ≤ P → fetchPage p = Except.ok (env p))
    (hbefore : ∀ p, 1 ≤ p → p < P →
       ¬ (((pagesConcat env p).length : Int) ≥ (env p).result.totalRows) ∧
       (env p).result.data ≠ [])
    (hempty : (env P).result.data = []) :
    ConnectedClients fetchPage =
      ⟨some (dedupeClients (pagesConcat env P)), none, P, false⟩ := by
  have hnostop : ∀ p, 1 ≤ p → p < P → ¬ stopCondAt env p := by
    intro p hp1 hpP hcontra
    obtain ⟨ha, hb⟩ := hbefore p hp1 hpP
    rcases hcontra with hlen | hdata
    · exact ha hlen
    · exact hb (List.length_eq_zero.mp hdata)
  have hstop : stopCondAt env P := Or.inr (by rw [hempty]; rfl)
  have hloop := loopGo_stop fetchPage env P hP maxPages 1 rfl le_rfl h1
    hfetch hnostop hstop
  unfold ConnectedClients
  rw [show pagesConcat env (1 - 1) = [] from rfl] at hloop
  rw [hloop]

/-- C5 witness: page 1 has two records (`totalRows = 5` not reached),
page 2 is empty; the loop stops at page 2 without error. -/
theorem connectedClients_emptyPage_witness :
    ConnectedClients (fetchEnv envEmpty) =
      ⟨some (dedupeClients (pagesConcat envEmpty 2)), none, 2, false⟩
  ∧ dedupeClients (pagesConcat envEmpty 2) = [mkClient "aa", mkClient "bb"] :=
  ⟨connectedClients_emptyPage (fetchEnv envEmpty) envEmpty 2
     (by decide) (by decide) (fun p _ _ => rfl)
     (by intro p h1 h2; interval_cases p; exact ⟨by decide, by decide⟩)
     (by decide),
   by decide⟩

/-- Hexadecimal digits are unreserved characters. -/
lemma hexDigit_unreserved : ∀ n, n < 16 → isUnreservedQuery (hexDigit n) = true := by
  decide

/-- C8: the site segment of the clients request path is the
percent-encoding of the site string, so it consists only of unreserved
characters, `+`, or `%`-escapes — no raw reserved character (space,
slash, `?`, `&`, …) from the site string reaches the path. -/
theorem clientsPath_escaped (site : String) (page : Nat) :
    clientsPath site page =
      "/api/v2/sites/" ++ queryEscape site ++
        "/clients?currentPage=" ++ toString page ++
        "&currentPageSize=100&filters.active=true"
  ∧ ∀ ch ∈ (queryEscape site).data,
      isUnreservedQuery ch = true ∨ ch = '+' ∨ ch = '%' := by
  refine ⟨rfl, ?_⟩
  intro ch hch
  have hmem : ch ∈ (List.map escapeChar site.data).flatten := hch
  rw [List.mem_flatten] at hmem
  obtain ⟨s, hs, hchs⟩ := hmem
  rw [List.mem_map] at hs
  obtain ⟨c0, _, rfl⟩ := hs
  unfold escapeChar at hchs
  by_cases h1 : c0 = ' '
  · rw [if_pos h1] at hchs
    simp at hchs
    subst hchs
    right; left; rfl
  · rw [if_neg h1] at hchs
    by_cases h2 : isUnreservedQuery c0 = true
    · rw [if_pos h2] at hchs
      simp at hchs
      subst hchs
      left; exact h2
    · rw [if_neg h2] at hchs
      rw [List.mem_flatten] at hchs
      obtain ⟨eb, heb, hcheb⟩ := hchs
      rw [List.mem_map] at heb
      obtain ⟨b, _, rfl⟩ := heb
      simp only [escapeByte, List.mem_cons, List.mem_singleton] at hcheb
      rcases hcheb with rfl | rfl | hcheb
      · right; right; rfl
      · left; exact hexDigit_unreserved _ (Nat.mod_lt _ (by omega))
      · rcases hcheb with rfl | hfalse
        · left; exact hexDigit_unreserved _ (Nat.mod_lt _ (by omega))
        · simp at hfalse

/-- C8 witness: a site containing a space and a slash; the space
becomes `+`, the slash becomes `%2F`, and the theorem applies to the
escaped `+`. -/
theorem clientsPath_escaped_witness :
    queryEscape "a b/c" = "a+b%2Fc"
  ∧ '+' ∈ (queryEscape "a b/c").data
  ∧ (isUnreservedQuery '+' = true ∨ '+' = '+' ∨ '+' = '%') :=
  ⟨by decide, by decide,
   (clientsPath_escaped "a b/c" 1).2 '+' (by decide)⟩

/-- Branch evaluation: discovery request failed. -/
lemma authenticate_info_error (c : ClientState) (e : Err)
    (login : Except Err AuthResult) :
    authenticate c (Except.error e) login =
      (SetBaseURL (SetToken c "") "/", some e) := rfl

/-- Branch evaluation: discovery returned an empty controller ID. -/
lemma authenticate_no_id (c : ClientState) (ir : InfoResult)
    (login : Except Err AuthResult) (h : ir.controllerId = "") :
    authenticate c (Except.ok ir) login =
      (SetBaseURL (SetToken c "") "/",
       some (Err.discoveryError ir.errorCode ir.msg)) := by
  simp [authenticate, h]

/-- Branch evaluation: login request failed. -/
lemma authenticate_login_error (c : ClientState) (ir : InfoResult) (e : Err)
    (h : ir.controllerId ≠ "") :
    authenticate c (Except.ok ir) (Except.error e) =
      (SetBaseURL (SetBaseURL (SetToken c "") "/") ir.controllerId, some e) := by
  simp [authenticate, h]

/-- Branch evaluation: login returned an empty token. -/
lemma authenticate_empty_token (c : ClientState) (ir : InfoResult)
    (ar : AuthResult) (h : ir.controllerId ≠ "") (h2 : ar.token = "") :
    authenticate c (Except.ok ir) (Except.ok ar) =
      (SetBaseURL (SetBaseURL (SetToken c "") "/") ir.controllerId,
       some (Err.authError ar.errorCode ar.msg)) := by
  simp [authenticate, h, h2]

/-- Branch evaluation: both phases succeeded. -/
lemma authenticate_ok (c : ClientState) (ir : InfoResult) (ar : AuthResult)
    (h : ir.controllerId ≠ "") (h2 : ar.token ≠ "") :
    authenticate c (Except.ok ir) (Except.ok ar) =
      (SetToken (SetBaseURL (SetBaseURL (SetToken c "") "/") ir.controllerId)
         ar.token, none) := by
  simp [authenticate, h, h2]

/-- C9: after `authenticate`, the token is non-empty exactly when the
run returned no error; on every failure path the token is left empty;
an early failure (of discovery) leaves the base path reset to the
configured root; and a successful run stores the returned (non-empty)
token with the base path equal to the configured root joined with the
discovered controller identity — spelled out, root + "/" + identity
for a plain identity segment.  `configPath` itself never changes, so
subsequent requests (which read token and base path from this state)
carry the new values. -/
theorem authenticate_spec (c : ClientState) (info : Except Err InfoResult)
    (login : Except Err AuthResult) :
    ((authenticate c info login).1.token ≠ "" ↔
       (authenticate c info login).2 = none)
  ∧ (authenticate c info login).1.configPath = c.configPath
  ∧ (∀ e, (authenticate c info login).2 = some e →
       (authenticate c info login).1.token = "")
  ∧ (∀ e, info = Except.error e →
       (authenticate c info login).2 = some e ∧
       (authenticate c info login).1.token = "" ∧
       (authenticate c info login).1.baseURL = trimSlash c.configPath)
  ∧ (∀ ir ar, info = Except.ok ir → login = Except.ok ar →
       ir.controllerId ≠ "" → ar.token ≠ "" →
       (authenticate c info login).2 = none ∧
       (authenticate c info login).1.token = ar.token ∧
       (authenticate c info login).1.baseURL =
         trimSlash (joinPath c.configPath ir.controllerId))
  ∧ (∀ ir ar, info = Except.ok ir → login = Except.ok ar →
       ir.controllerId ≠ "" → ar.token ≠ "" →
       strStartsWithSlash ir.controllerId = false →
       strEndsWithSlash ir.controllerId = false →
       (authenticate c info login).1.baseURL =
         trimSlash c.configPath ++ "/" ++ ir.controllerId) := by
  rcases info with e | ir
  · rw [authenticate_info_error]
    simp [SetBaseURL, SetToken, trimSlash_joinPath_root]
  · by_cases hid : ir.controllerId = ""
    · rw [authenticate_no_id c ir login hid]
      simp only [SetBaseURL, SetToken]
      refine ⟨by simp, by trivial, by simp, by simp, ?_, ?_⟩
      · intro ir2 ar2 hir2 _ hne _
        cases hir2
        exact absurd hid hne
      · intro ir2 ar2 hir2 _ hne _ _ _
        cases hir2
        exact absurd hid hne
    · rcases login with e | ar
      · rw [authenticate_login_error c ir e hid]
        simp only [SetBaseURL, SetToken]
        refine ⟨by simp, by trivial, by simp, by simp, ?_, ?_⟩
        · intro ir2 ar2 _ har2 _ _
          cases har2
        · intro ir2 ar2 _ har2 _ _ _ _
          cases har2
      · by_cases htok : ar.token = ""
        · rw [authenticate_empty_token c ir ar hid htok]
          simp only [SetBaseURL, SetToken]
          refine ⟨by simp, by trivial, by simp, by simp, ?_, ?_⟩
          · intro ir2 ar2 _ har2 _ hne2
            cases har2
            exact absurd htok hne2
          · intro ir2 ar2 _ har2 _ hne2 _ _
            cases har2
            exact absurd htok hne2
        · rw [authenticate_ok c ir ar hid htok]
          simp only [SetBaseURL, SetToken]
          refine ⟨by simp [htok], by trivial, by simp, by simp, ?_, ?_⟩
          · intro ir2 ar2 hir2 har2 _ _
            cases hir2
            cases har2
            simp
          · intro ir2 ar2 hir2 har2 _ _ hstart2 hend2
            cases hir2
            cases har2
            exact trimSlash_joinPath_segment c.configPath ir.controllerId hid
              hstart2 hend2

/-- C9 witness: a successful two-phase login at a concrete
configuration (root `"https://ctrl:8043/"`, controller identity
`"abc123"`, token `"T1"`): no error, the token is stored, and the base
path is the configured root plus "/" plus the identity. -/
theorem authenticate_spec_witness :
    (authenticate
       ⟨"https://ctrl:8043/", "admin", "pw", "https://ctrl:8043", ""⟩
       (Except.ok ⟨0, "", "abc123"⟩) (Except.ok ⟨0, "", 0, "T1"⟩)).2 = none
  ∧ (authenticate
       ⟨"https://ctrl:8043/", "admin", "pw", "https://ctrl:8043", ""⟩
       (Except.ok ⟨0, "", "abc123"⟩) (Except.ok ⟨0, "", 0, "T1"⟩)).1.token = "T1"
  ∧ (authenticate
       ⟨"https://ctrl:8043/", "admin", "pw", "https://ctrl:8043", ""⟩
       (Except.ok ⟨0, "", "abc123"⟩) (Except.ok ⟨0, "", 0, "T1"⟩)).1.baseURL =
      "https://ctrl:8043/abc123" := by
  obtain ⟨hnone, htoken, _⟩ :=
    (authenticate_spec
       ⟨"https://ctrl:8043/", "admin", "pw", "https://ctrl:8043", ""⟩
       (Except.ok ⟨0, "", "abc123"⟩)
       (Except.ok ⟨0, "", 0, "T1"⟩)).2.2.2.2.1
      ⟨0, "", "abc123"⟩ ⟨0, "", 0, "T1"⟩ rfl rfl (by decide) (by decide)
  have hbase :=
    (authenticate_spec
       ⟨"https://ctrl:8043/", "admin", "pw", "https://ctrl:8043", ""⟩
       (Except.ok ⟨0, "", "abc123"⟩)
       (Except.ok ⟨0, "", 0, "T1"⟩)).2.2.2.2.2
      ⟨0, "", "abc123"⟩ ⟨0, "", 0, "T1"⟩ rfl rfl (by decide) (by decide)
      (by decide) (by decide)
  refine ⟨hnone, htoken, ?_⟩
  rw [hbase]
  decide
